import Mathlib

/-!
Verification of the `re-static` analysis pipeline.

The repository has two parts:

* a regex presence analyzer (`re_static.analyzer`, exposing `Group` and
  `get_groups`), which classifies every capturing group of a pattern as
  always-present or conditionally-present; its source is not in the checkout,
  so it is modelled here from the specification (each such definition is
  marked `Modelled from the spec:`);
* a mypy plugin adapter (`src/re_static/mypy_plugin/plugin.py`), embedded
  faithfully below: the REGEX-constant discovery loop, the class hook that
  calls the analyzer and registers group attribute names, the process-wide
  registry keyed by class fullname, and the attribute hook that retypes
  instance accesses to group attributes.
-/

namespace ReStatic

/-- Modelled from the spec: the internal per-node presence state of §3,
`Always` or `Conditional`, attached per group index during the traversal. -/
inductive PresenceState where
  | Always
  | Conditional
deriving DecidableEq, Repr

/-- Modelled from the spec: the parsed regex tree `Node` of §3.  Literals,
character classes and anchors all contribute no groups and are collapsed into
`Literal`; `Grp` is the spec's `Group` node variant (named differently from
the analysis-output `Group` record below). -/
inductive Node where
  | Literal
  | Sequence (children : List Node)
  | Alternation (branches : List Node)
  | Grp (index : Nat) (name : Option String) (body : Node)
  | NonCapturing (body : Node)
  | Repeat (body : Node) (minReps : Nat) (maxReps : Option Nat)
  | Lookaround (body : Node) (behind : Bool) (negative : Bool)
  | Backreference

/-- Modelled from the spec: the analysis output record `Group` of §3, with
`index` (0 = whole match), optional `name`, and the `always_present` flag. -/
structure Group where
  index : Nat
  name : Option String
  always_present : Bool
deriving DecidableEq, Repr

/-- Modelled from the spec: the parse-error type of §7, carrying a
human-readable reason and, where determinable, a character offset. -/
structure PatternSyntaxError where
  reason : String
  pos : Option Nat
deriving DecidableEq, Repr

/-- One entry of the per-node group map built by the presence traversal:
a group index, its optional name, and its presence state. -/
structure GEntry where
  index : Nat
  name : Option String
  state : PresenceState
deriving DecidableEq, Repr

/-! ### Pattern parser (Modelled from the spec, §4.1) -/

/-- Read a run of decimal digits; returns `none` when no digit was read. -/
def readNat : List Char → Option Nat → Option Nat × List Char
  | [], acc => (acc, [])
  | c :: cs, acc =>
      if c.isDigit then readNat cs (some ((acc.getD 0) * 10 + (c.toNat - 48)))
      else (acc, c :: cs)

/-- Consume the rest of a character class, up to and including the closing
bracket; a backslash escapes the next character. -/
def charClassBody : List Char → Except PatternSyntaxError (List Char)
  | [] => .error ⟨"unterminated character set", none⟩
  | ']' :: cs => .ok cs
  | '\\' :: [] => .error ⟨"bad escape (end of pattern)", none⟩
  | '\\' :: _ :: cs => charClassBody cs
  | _ :: cs => charClassBody cs

/-- Consume a whole character class (input starts just after the opening
bracket): an optional leading caret, then an optional literal closing bracket,
then the body. -/
def parseCharClass (cs : List Char) : Except PatternSyntaxError (List Char) :=
  let cs1 := match cs with
    | '^' :: rest => rest
    | _ => cs
  let cs2 := match cs1 with
    | ']' :: rest => rest
    | _ => cs1
  charClassBody cs2

/-- Read a group name up to the given terminator; the name must be nonempty. -/
def readName (stop : Char) : List Char → List Char → Except PatternSyntaxError (String × List Char)
  | [], _ => .error ⟨"unterminated group name", none⟩
  | c :: cs, acc =>
      if c = stop then
        if acc.isEmpty then .error ⟨"missing group name", none⟩
        else .ok (String.mk acc.reverse, cs)
      else readName stop cs (c :: acc)

/-- Parse bounds `m`, `m,`, `m,n`, `,n` just after an opening brace, through
the closing brace; `none` when the text is not a bounds form (then the brace
is an ordinary literal, as in the host dialect). -/
def parseBraceQuant (cs : List Char) : Option (Nat × Option Nat × List Char) :=
  match readNat cs none with
  | (lo, rest) =>
    match rest with
    | '}' :: rest2 =>
        match lo with
        | some m => some (m, some m, rest2)
        | none => none
    | ',' :: rest2 =>
        match readNat rest2 none with
        | (hi, '}' :: rest3) => some (lo.getD 0, hi, rest3)
        | _ => none
    | _ => none

/-- Skip the lazy marker after a quantifier (laziness does not change
presence semantics, §4.1). -/
def skipLazy : List Char → List Char
  | '?' :: rest => rest
  | cs => cs

/-- Apply at most one quantifier (star, plus, question mark, or brace bounds)
to a freshly parsed atom; rejects inverted brace bounds. -/
def applyQuant (n : Node) (cs : List Char) : Except PatternSyntaxError (Node × List Char) :=
  match cs with
  | '*' :: rest => .ok (.Repeat n 0 none, skipLazy rest)
  | '+' :: rest => .ok (.Repeat n 1 none, skipLazy rest)
  | '?' :: rest => .ok (.Repeat n 0 (some 1), skipLazy rest)
  | '{' :: rest =>
      match parseBraceQuant rest with
      | some (m, some mx, rest2) =>
          if mx < m then .error ⟨"min repeat greater than max repeat", none⟩
          else .ok (.Repeat n m (some mx), skipLazy rest2)
      | some (m, none, rest2) => .ok (.Repeat n m none, skipLazy rest2)
      | none => .ok (n, cs)
  | _ => .ok (n, cs)

/-- Expect the closing parenthesis of a group. -/
def expectClose (cs : List Char) (n : Node) (gi : Nat) :
    Except PatternSyntaxError (Node × List Char × Nat) :=
  match cs with
  | ')' :: rest => .ok (n, rest, gi)
  | _ => .error ⟨"missing ), unterminated subpattern", none⟩

mutual

/-- Modelled from the spec: parse an alternation — sequences separated by
vertical bars.  `gi` is the next free capturing-group index (groups are
numbered left to right from 1 at their opening parenthesis, §3). -/
def parseAlt : Nat → List Char → Nat → Except PatternSyntaxError (Node × List Char × Nat)
  | 0, _, _ => .error ⟨"pattern too deeply nested", none⟩
  | fuel + 1, cs, gi =>
      match parseSeq fuel cs gi with
      | .error e => .error e
      | .ok (n, rest, gi1) =>
          match rest with
          | '|' :: rest2 =>
              match parseAlt fuel rest2 gi1 with
              | .error e => .error e
              | .ok (Node.Alternation bs, rest3, gi2) => .ok (.Alternation (n :: bs), rest3, gi2)
              | .ok (m, rest3, gi2) => .ok (.Alternation [n, m], rest3, gi2)
          | _ => .ok (n, rest, gi1)
termination_by structural fuel => fuel

/-- Parse a concatenation of quantified atoms, stopping at a vertical bar, a
closing parenthesis, or the end of input. -/
def parseSeq : Nat → List Char → Nat → Except PatternSyntaxError (Node × List Char × Nat)
  | 0, _, _ => .error ⟨"pattern too deeply nested", none⟩
  | fuel + 1, cs, gi =>
      match cs with
      | [] => .ok (.Sequence [], [], gi)
      | ')' :: _ => .ok (.Sequence [], cs, gi)
      | '|' :: _ => .ok (.Sequence [], cs, gi)
      | _ =>
          match parseQuantAtom fuel cs gi with
          | .error e => .error e
          | .ok (n, rest, gi1) =>
              match parseSeq fuel rest gi1 with
              | .error e => .error e
              | .ok (Node.Sequence ms, rest2, gi2) => .ok (.Sequence (n :: ms), rest2, gi2)
              | .ok (m, rest2, gi2) => .ok (.Sequence [n, m], rest2, gi2)
termination_by structural fuel => fuel

/-- Parse one atom and any quantifier attached to it. -/
def parseQuantAtom : Nat → List Char → Nat → Except PatternSyntaxError (Node × List Char × Nat)
  | 0, _, _ => .error ⟨"pattern too deeply nested", none⟩
  | fuel + 1, cs, gi =>
      match parseAtom fuel cs gi with
      | .error e => .error e
      | .ok (n, rest, gi1) =>
          match applyQuant n rest with
          | .error e => .error e
          | .ok (n2, rest2) => .ok (n2, rest2, gi1)
termination_by structural fuel => fuel

/-- Parse a single atom: a parenthesized form, a character class, a dot, an
anchor, an escape (digit escapes are backreferences), or a literal character.
A quantifier with nothing before it is a syntax error. -/
def parseAtom : Nat → List Char → Nat → Except PatternSyntaxError (Node × List Char × Nat)
  | 0, _, _ => .error ⟨"pattern too deeply nested", none⟩
  | fuel + 1, cs, gi =>
      match cs with
      | [] => .error ⟨"unexpected end of pattern", none⟩
      | '(' :: rest => parseGroup fuel rest gi
      | '[' :: rest =>
          match parseCharClass rest with
          | .error e => .error e
          | .ok rest2 => .ok (.Literal, rest2, gi)
      | '.' :: rest => .ok (.Literal, rest, gi)
      | '^' :: rest => .ok (.Literal, rest, gi)
      | '$' :: rest => .ok (.Literal, rest, gi)
      | '\\' :: [] => .error ⟨"bad escape (end of pattern)", none⟩
      | '\\' :: c :: rest =>
          if c.isDigit then .ok (.Backreference, rest, gi)
          else .ok (.Literal, rest, gi)
      | '*' :: _ => .error ⟨"nothing to repeat", none⟩
      | '+' :: _ => .error ⟨"nothing to repeat", none⟩
      | '?' :: _ => .error ⟨"nothing to repeat", none⟩
      | _ :: rest => .ok (.Literal, rest, gi)
termination_by structural fuel => fuel

/-- Parse a parenthesized form (input starts just after the opening
parenthesis): named group, named backreference, non-capturing group, the four
lookarounds, or a plain capturing group. -/
def parseGroup : Nat → List Char → Nat → Except PatternSyntaxError (Node × List Char × Nat)
  | 0, _, _ => .error ⟨"pattern too deeply nested", none⟩
  | fuel + 1, cs, gi =>
      match cs with
      | '?' :: 'P' :: '<' :: rest =>
          match readName '>' rest [] with
          | .error e => .error e
          | .ok (name, rest2) =>
              match parseAlt fuel rest2 (gi + 1) with
              | .error e => .error e
              | .ok (body, rest3, gi1) => expectClose rest3 (.Grp gi (some name) body) gi1
      | '?' :: 'P' :: '=' :: rest =>
          match readName ')' rest [] with
          | .error e => .error e
          | .ok (_, rest2) => .ok (.Backreference, rest2, gi)
      | '?' :: ':' :: rest =>
          match parseAlt fuel rest gi with
          | .error e => .error e
          | .ok (body, rest2, gi1) => expectClose rest2 (.NonCapturing body) gi1
      | '?' :: '=' :: rest =>
          match parseAlt fuel rest gi with
          | .error e => .error e
          | .ok (body, rest2, gi1) => expectClose rest2 (.Lookaround body false false) gi1
      | '?' :: '!' :: rest =>
          match parseAlt fuel rest gi with
          | .error e => .error e
          | .ok (body, rest2, gi1) => expectClose rest2 (.Lookaround body false true) gi1
      | '?' :: '<' :: '=' :: rest =>
          match parseAlt fuel rest gi with
          | .error e => .error e
          | .ok (body, rest2, gi1) => expectClose rest2 (.Lookaround body true false) gi1
      | '?' :: '<' :: '!' :: rest =>
          match parseAlt fuel rest gi with
          | .error e => .error e
          | .ok (body, rest2, gi1) => expectClose rest2 (.Lookaround body true true) gi1
      | '?' :: _ => .error ⟨"unknown extension", none⟩
      | _ =>
          match parseAlt fuel cs (gi + 1) with
          | .error e => .error e
          | .ok (body, rest2, gi1) => expectClose rest2 (.Grp gi none body) gi1
termination_by structural fuel => fuel

end

/-- Modelled from the spec: `parse(pattern, flags) -> Node` of §4.1.  Flags
affect only literal and character-class matching semantics (§4.1), which this
structural model collapses into `Literal`, so they do not alter the tree.
Leftover input after a balanced parse can only be a stray closing
parenthesis. -/
def parse (pattern : String) (flags : Nat) : Except PatternSyntaxError Node :=
  match flags, parseAlt (4 * pattern.length + 8) pattern.toList 1 with
  | _, .error e => .error e
  | _, .ok (n, [], _) => .ok n
  | _, .ok (_, _ :: _, _) => .error ⟨"unbalanced parenthesis", none⟩

/-! ### Presence analyzer (Modelled from the spec, §4.2) -/

/-- Is this presence state `Always`? -/
def PresenceState.isAlways : PresenceState → Bool
  | .Always => true
  | .Conditional => false

/-- Downgrade every entry of a group map to `Conditional` (used under a
`Repeat` with minimum 0 and under negative lookaround). -/
def forceConditional (m : List GEntry) : List GEntry :=
  m.map fun e => { e with state := PresenceState.Conditional }

/-- Does this branch map bind the given index as `Always`? -/
def branchAlways (m : List GEntry) (i : Nat) : Bool :=
  m.any fun e => e.index == i && e.state.isAlways

/-- Does every branch of an alternation bind the given index as `Always`? -/
def allBranchesAlways (maps : List (List GEntry)) (i : Nat) : Bool :=
  maps.all fun m => branchAlways m i

/-- Keep the first entry for each group index, dropping later duplicates. -/
def dedupByIndex (seen : List Nat) : List GEntry → List GEntry
  | [] => []
  | e :: rest =>
      if seen.contains e.index then dedupByIndex seen rest
      else e :: dedupByIndex (e.index :: seen) rest

/-- Modelled from the spec: the `Alternation` rule of §4.2 — union of the
branch maps, where a group is `Always` only if every branch defines it as
`Always`, and `Conditional` otherwise (in particular when it occurs in only
one branch). -/
def combineAlternation (maps : List (List GEntry)) : List GEntry :=
  (dedupByIndex [] maps.flatten).map fun e =>
    { e with
      state := if allBranchesAlways maps e.index then PresenceState.Always
               else PresenceState.Conditional }

mutual

/-- Modelled from the spec: the bottom-up group-map computation of §4.2,
one rule per `Node` kind. -/
def groupMap : Node → List GEntry
  | .Literal => []
  | .Backreference => []
  | .Sequence children => groupMapList children
  | .Alternation branches => combineAlternation (groupMapBranches branches)
  | .Grp i name body => ⟨i, name, PresenceState.Always⟩ :: groupMap body
  | .NonCapturing body => groupMap body
  | .Repeat body minReps _ =>
      if minReps = 0 then forceConditional (groupMap body) else groupMap body
  | .Lookaround body _ negative =>
      if negative then forceConditional (groupMap body) else groupMap body

/-- Group maps of the children of a `Sequence`, concatenated (§4.2: union of
all children's maps, each entry keeping the state its own child assigned). -/
def groupMapList : List Node → List GEntry
  | [] => []
  | n :: ns => groupMap n ++ groupMapList ns

/-- Group maps of the branches of an `Alternation`, kept separate so the
every-branch test of the alternation rule can run over them. -/
def groupMapBranches : List Node → List (List GEntry)
  | [] => []
  | n :: ns => groupMap n :: groupMapBranches ns

end

/-- Insert one entry into a list sorted by ascending group index. -/
def insertByIndex (e : GEntry) : List GEntry → List GEntry
  | [] => [e]
  | f :: fs => if e.index ≤ f.index then e :: f :: fs else f :: insertByIndex e fs

/-- Insertion sort of a group map by ascending group index (§4.2 final step). -/
def sortByIndex : List GEntry → List GEntry
  | [] => []
  | e :: es => insertByIndex e (sortByIndex es)

/-- Modelled from the spec: `propagate(root) -> Sequence<Group>` of §4.2 —
sort the collected entries by index, synthesize the implicit whole-match
group 0 as always-present with no name, and emit the `Group` records. -/
def propagate (root : Node) : List Group :=
  (GEntry.mk 0 none PresenceState.Always :: sortByIndex (groupMap root)).map fun e =>
    { index := e.index, name := e.name, always_present := e.state.isAlways }

/-- Modelled from the spec: `analyze(pattern, flags) =
propagate(parse(pattern, flags))` (§2). -/
def analyze (pattern : String) (flags : Nat) : Except PatternSyntaxError (List Group) :=
  (parse pattern flags).map propagate

/-- Modelled from the spec: `get_groups`, the name under which the mypy
plugin imports the analyzer entry point; the same function as `analyze`. -/
def get_groups (pattern : String) (flags : Nat) : Except PatternSyntaxError (List Group) :=
  analyze pattern flags

/-! ### The mypy plugin adapter (embedded from
`src/re_static/mypy_plugin/plugin.py`) -/

/-- An expression on the right-hand side of a class-body statement:
`StrExpr` is mypy's string-literal node; everything else is opaque to the
plugin (`isinstance(rvalue, StrExpr)` fails on it). -/
inductive Expr where
  | StrExpr (value : String)
  | OtherExpr
deriving DecidableEq, Repr

/-- An assignment target; `name` models `getattr(lvalue, "name", None)`. -/
structure Lvalue where
  name : Option String
deriving DecidableEq, Repr

/-- A class-body statement as the discovery loop sees it: `lvalues` models
`getattr(stmt, "lvalues", None)` (a missing attribute is `none`), `rvalue`
models `getattr(stmt, "rvalue", None)`, and `name` models
`getattr(stmt, "name", None)`. -/
structure Stmt where
  lvalues : Option (List Lvalue)
  rvalue : Option Expr
  name : Option String
deriving DecidableEq, Repr

/-- Python truthiness of the `lvalues` attribute: `None` and the empty list
are falsy (`if lvalues := getattr(stmt, "lvalues", None)`). -/
def lvaluesTruthy : Option (List Lvalue) → Option (List Lvalue)
  | some (l :: ls) => some (l :: ls)
  | _ => none

/-- The REGEX-discovery loop of `_static_regex_class_hook`: statements are
scanned in order; a statement with truthy `lvalues`, one of them named
`REGEX`, and a string-literal `rvalue` overwrites the pattern found so far
(its `break` only leaves the inner loop over lvalues); a statement with no
truthy `lvalues` whose own `name` is `REGEX` and whose `rvalue` is a string
literal sets the pattern and stops the scan (its `break` leaves the outer
loop). -/
def findRegexPattern : List Stmt → Option String → Option String
  | [], cur => cur
  | stmt :: rest, cur =>
      match lvaluesTruthy stmt.lvalues with
      | some lvs =>
          match stmt.rvalue with
          | some (Expr.StrExpr v) =>
              if lvs.any fun lv => lv.name = some "REGEX" then
                findRegexPattern rest (some v)
              else findRegexPattern rest cur
          | _ => findRegexPattern rest cur
      | none =>
          if stmt.name = some "REGEX" then
            match stmt.rvalue with
            | some (Expr.StrExpr v) => some v
            | _ => findRegexPattern rest cur
          else findRegexPattern rest cur

/-- The plugin's class-level registry `ReStaticMypyPlugin._class_groups`:
a dictionary from a declaring class's fullname to its analyzed group list,
modelled as an association list with unique keys. -/
abbrev Registry : Type := List (String × List Group)

/-- Dictionary lookup, `self._class_groups.get(fullname)`. -/
def Registry.get : Registry → String → Option (List Group)
  | [], _ => none
  | (k, v) :: rest, key => if k = key then some v else Registry.get rest key

/-- Dictionary assignment, `self._class_groups[fullname] = groups`:
overwrite the existing entry or append a new one. -/
def Registry.set : Registry → String → List Group → Registry
  | [], key, v => [(key, v)]
  | (k, w) :: rest, key, v =>
      if k = key then (key, v) :: rest else (k, w) :: Registry.set rest key v

/-- The observable effect of one run of `_static_regex_class_hook`: the
analyzer calls it made (pattern and flags of each), the registry afterwards,
the attribute names added to the class's symbol table, and the diagnostics
it emitted (the hook never calls `ctx.api.fail`, so this list stays empty). -/
structure HookEffect where
  analyzerCalls : List (String × Nat)
  registry : Registry
  registeredAttrs : List String
  diagnostics : List String
deriving DecidableEq, Repr

/-- Python truthiness of an optional group name: `not group.name` holds for
`None` and for the empty string. -/
def nameFalsy : Option String → Bool
  | none => true
  | some s => s == ""

/-- `_static_regex_class_hook`, embedded.  `gg` is the imported analyzer
entry point `get_groups` (kept as a parameter so the hook's control flow is
stated for any analyzer outcome).  If no REGEX string literal is found, or
the found literal is empty (`if not regex_pattern: return`), the hook
returns having done nothing.  Otherwise it calls `gg` once with the pattern
and flags 0; on an exception it returns (the `except` clause swallows the
error, emitting no diagnostic); on success it stores the groups under the
class's fullname and registers an attribute for every group whose index is
nonzero and whose name is truthy. -/
def staticRegexClassHook (gg : String → Nat → Except PatternSyntaxError (List Group))
    (registry : Registry) (classFullname : String) (body : List Stmt) : HookEffect :=
  match findRegexPattern body none with
  | none => ⟨[], registry, [], []⟩
  | some p =>
      if p = "" then ⟨[], registry, [], []⟩
      else
        match gg p 0 with
        | .error _ => ⟨[(p, 0)], registry, [], []⟩
        | .ok groups =>
            ⟨[(p, 0)], Registry.set registry classFullname groups,
              (groups.filter fun g => !(g.index == 0 || nameFalsy g.name)).map
                (fun g => g.name.getD ""),
              []⟩

/-- The shape of `ctx.type` as the attribute hook inspects it: a `TypeType`
whose item is an `Instance` (class-object access), a `TypeType` whose item is
not an `Instance`, an `Instance` (ordinary instance access), or anything
else.  An `Instance` is represented by the method-resolution order of its
class as a list of fullnames, the class itself first. -/
inductive MypyType where
  | typeTypeInstance (mro : List String)
  | typeTypeOther
  | instanceType (mro : List String)
  | otherType
deriving DecidableEq, Repr

/-- The inputs `_attribute_hook` reads from its `AttributeContext`:
`getattr(ctx.context, "name", None)`, `getattr(ctx.context, "member", None)`,
and `ctx.type`. -/
structure AttrContext where
  contextName : Option String
  contextMember : Option String
  type : MypyType
deriving DecidableEq, Repr

/-- The type the attribute hook returns: `builtins.str`, the union
`str | None`, or `ctx.default_attr_type` unchanged. -/
inductive AttrResult where
  | strType
  | strOrNone
  | defaultType
deriving DecidableEq, Repr

/-- The observable outcome of `_attribute_hook`: the returned type and
whether `ctx.api.fail` was called. -/
structure AttrHookOutcome where
  result : AttrResult
  failEmitted : Bool
deriving DecidableEq, Repr

/-- Python truthiness of an optional string (`if not (attr_name := ...)`):
`None` and the empty string are falsy. -/
def truthyStr : Option String → Option String
  | some "" => none
  | none => none
  | some s => some s

/-- Attribute-name resolution at the top of `_attribute_hook`: a truthy
`ctx.context.name`, else a truthy `ctx.context.member`, else nothing. -/
def resolveAttrName (ctx : AttrContext) : Option String :=
  match truthyStr ctx.contextName with
  | some n => some n
  | none => truthyStr ctx.contextMember

/-- Python truthiness of a registry lookup (`if groups :=
self._class_groups.get(...)`): `None` and the empty list are falsy. -/
def groupsTruthy : Option (List Group) → Option (List Group)
  | some (g :: gs) => some (g :: gs)
  | _ => none

/-- The instance-access MRO walk of `_attribute_hook`: visit each base class
in order; in the first base whose registered group list is truthy and
contains a group with the accessed name, return the first such group;
otherwise keep walking. -/
def findGroupInMRO (reg : Registry) (attr : String) : List String → Option Group
  | [] => none
  | b :: rest =>
      match groupsTruthy (Registry.get reg b) with
      | some gs =>
          match gs.find? fun g => g.name = some attr with
          | some g => some g
          | none => findGroupInMRO reg attr rest
      | none => findGroupInMRO reg attr rest

/-- The class-access MRO walk of `_attribute_hook`: does some base class in
the MRO have a truthy registered group list containing a group with the
accessed name? -/
def classAccessFindsGroup (reg : Registry) (attr : String) : List String → Bool
  | [] => false
  | b :: rest =>
      match groupsTruthy (Registry.get reg b) with
      | some gs =>
          if gs.any fun g => g.name = some attr then true
          else classAccessFindsGroup reg attr rest
      | none => classAccessFindsGroup reg attr rest

/-- `_attribute_hook`, embedded.  With no truthy attribute name the default
type is returned.  On class-object access (`TypeType` over an `Instance`) to
a registered group attribute, `ctx.api.fail` is called and the default type
returned.  On instance access, the first group found by the MRO walk yields
`str` when always-present and `str | None` otherwise.  In every other case
the default type is returned unchanged. -/
def attributeHook (reg : Registry) (ctx : AttrContext) : AttrHookOutcome :=
  match resolveAttrName ctx with
  | none => ⟨.defaultType, false⟩
  | some attr =>
      match ctx.type with
      | .typeTypeInstance mro =>
          if classAccessFindsGroup reg attr mro then ⟨.defaultType, true⟩
          else ⟨.defaultType, false⟩
      | .typeTypeOther => ⟨.defaultType, false⟩
      | .instanceType mro =>
          match findGroupInMRO reg attr mro with
          | some g =>
              if g.always_present then ⟨.strType, false⟩ else ⟨.strOrNone, false⟩
          | none => ⟨.defaultType, false⟩
      | .otherType => ⟨.defaultType, false⟩

/-- The method-resolution order the attribute hook walks for a given shape of
`ctx.type` (empty when no MRO walk happens at all). -/
def mroOf : MypyType → List String
  | .typeTypeInstance mro => mro
  | .instanceType mro => mro
  | .typeTypeOther => []
  | .otherType => []

/-- A class body holding the single assignment `REGEX = ""`. -/
def emptyRegexBody : List Stmt :=
  [⟨some [⟨some "REGEX"⟩], some (Expr.StrExpr ""), none⟩]

/-- A class body holding the single assignment `REGEX = "(abc"`, whose
pattern is unbalanced and fails to parse. -/
def unbalancedBody : List Stmt :=
  [⟨some [⟨some "REGEX"⟩], some (Expr.StrExpr "(abc"), none⟩]

/-! ### Helper lemmas -/

/-- Decidable equality for `Except`, so analyzer outcomes can be compared on
concrete inputs. -/
instance exceptDecEq {ε α : Type} [DecidableEq ε] [DecidableEq α] :
    DecidableEq (Except ε α) := fun a b =>
  match a, b with
  | .error e1, .error e2 =>
      if h : e1 = e2 then .isTrue (congrArg Except.error h)
      else .isFalse fun hc => h (Except.error.inj hc)
  | .ok a1, .ok a2 =>
      if h : a1 = a2 then .isTrue (congrArg Except.ok h)
      else .isFalse fun hc => h (Except.ok.inj hc)
  | .error _, .ok _ => .isFalse fun hc => Except.noConfusion hc
  | .ok _, .error _ => .isFalse fun hc => Except.noConfusion hc

/-- Storing under a key makes that key read back the stored value. -/
theorem Registry.get_set_self (r : Registry) (key : String) (v : List Group) :
    Registry.get (Registry.set r key v) key = some v := by
  induction r with
  | nil => simp [Registry.set, Registry.get]
  | cons kv rest ih =>
      obtain ⟨k, w⟩ := kv
      by_cases h : k = key
      · subst h; simp [Registry.set, Registry.get]
      · simp [Registry.set, Registry.get, h, ih]

/-- Storing under a key leaves every other key's lookup unchanged. -/
theorem Registry.get_set_other (r : Registry) (key : String) (v : List Group)
    (k2 : String) (h2 : k2 ≠ key) :
    Registry.get (Registry.set r key v) k2 = Registry.get r k2 := by
  induction r with
  | nil => simp [Registry.set, Registry.get, Ne.symm h2]
  | cons kv rest ih =>
      obtain ⟨k, w⟩ := kv
      by_cases h : k = key
      · subst h; simp [Registry.set, Registry.get, Ne.symm h2]
      · simp [Registry.set, Registry.get, h, ih]

/-! ### Claim theorems: the class hook -/

/-- C8: if the class body assigns no string literal to `REGEX`, or the
assigned literal is the empty string, the class hook returns having done
nothing — no analyzer call, no registry change, no attribute registered —
so the empty pattern is treated exactly like a missing one. -/
theorem classHook_missing_or_empty_noop
    (gg : String → Nat → Except PatternSyntaxError (List Group))
    (reg : Registry) (cls : String) (body : List Stmt)
    (h : findRegexPattern body none = none ∨ findRegexPattern body none = some "") :
    staticRegexClassHook gg reg cls body = ⟨[], reg, [], []⟩ := by
  rcases h with h | h <;> simp [staticRegexClassHook, h]

/-- Witness for C8: the concrete class body `REGEX = ""` leaves a nonempty
registry untouched and performs no call. -/
theorem classHook_missing_or_empty_noop_witness :
    staticRegexClassHook get_groups [("m.D", [⟨0, none, true⟩])] "m.C" emptyRegexBody =
      ⟨[], [("m.D", [⟨0, none, true⟩])], [], []⟩ :=
  classHook_missing_or_empty_noop get_groups _ _ _ (Or.inr rfl)

/-- C4 counterexample: in `emptyRegexBody` the discovery loop does find a
string-literal `REGEX` constant (the empty string), yet the adapter makes no
analyzer call — not exactly one call per discovered constant. -/
theorem classHook_call_once_cex :
    findRegexPattern emptyRegexBody none = some "" ∧
    (staticRegexClassHook get_groups [] "m.C" emptyRegexBody).analyzerCalls = [] :=
  ⟨rfl, rfl⟩

/-- C4 (amended): for every class in which a non-empty string-literal
`REGEX` constant is discovered, the hook calls the analyzer exactly once,
with that pattern and flags 0; a class with no discovered constant triggers
no call. -/
theorem classHook_calls_analyzer_once
    (gg : String → Nat → Except PatternSyntaxError (List Group))
    (reg : Registry) (cls : String) (body : List Stmt) :
    (∀ p : String, findRegexPattern body none = some p → p ≠ "" →
        (staticRegexClassHook gg reg cls body).analyzerCalls = [(p, 0)]) ∧
    (findRegexPattern body none = none →
        (staticRegexClassHook gg reg cls body).analyzerCalls = []) := by
  constructor
  · intro p hfind hp
    cases hgg : gg p 0 <;> simp [staticRegexClassHook, hfind, hp, hgg]
  · intro hfind
    simp [staticRegexClassHook, hfind]

/-- Witness for C4 (amended): a concrete class body with
`REGEX = "(?P<opt>x)?"` produces exactly one analyzer call. -/
theorem classHook_calls_analyzer_once_witness :
    (staticRegexClassHook get_groups [] "m.C"
        [⟨some [⟨some "REGEX"⟩], some (Expr.StrExpr "(?P<opt>x)?"), none⟩]).analyzerCalls =
      [("(?P<opt>x)?", 0)] :=
  (classHook_calls_analyzer_once get_groups [] "m.C" _).1 "(?P<opt>x)?" rfl (by decide)

/-- C5: a successful analysis stores the analyzed group list under the
declaring class's fullname, adding or overwriting only that entry: every
other class's registry entry reads back unchanged. -/
theorem classHook_registry_frame
    (gg : String → Nat → Except PatternSyntaxError (List Group))
    (reg : Registry) (cls : String) (body : List Stmt)
    (p : String) (groups : List Group)
    (hfind : findRegexPattern body none = some p) (hp : p ≠ "")
    (hok : gg p 0 = Except.ok groups) :
    Registry.get (staticRegexClassHook gg reg cls body).registry cls = some groups ∧
    ∀ k : String, k ≠ cls →
      Registry.get (staticRegexClassHook gg reg cls body).registry k = Registry.get reg k := by
  have hr : (staticRegexClassHook gg reg cls body).registry = Registry.set reg cls groups := by
    simp [staticRegexClassHook, hfind, hp, hok]
  rw [hr]
  exact ⟨Registry.get_set_self reg cls groups,
    fun k hk => Registry.get_set_other reg cls groups k hk⟩

/-- Witness for C5: analyzing `REGEX = "(?P<req>x)+"` for class `m.C` stores
its two groups under `m.C` and leaves the entry for `m.Other` unchanged. -/
theorem classHook_registry_frame_witness :
    Registry.get (staticRegexClassHook get_groups [("m.Other", [⟨0, none, true⟩])] "m.C"
        [⟨some [⟨some "REGEX"⟩], some (Expr.StrExpr "(?P<req>x)+"), none⟩]).registry "m.C" =
      some [⟨0, none, true⟩, ⟨1, some "req", true⟩] ∧
    Registry.get (staticRegexClassHook get_groups [("m.Other", [⟨0, none, true⟩])] "m.C"
        [⟨some [⟨some "REGEX"⟩], some (Expr.StrExpr "(?P<req>x)+"), none⟩]).registry "m.Other" =
      some [⟨0, none, true⟩] := by
  have h := classHook_registry_frame get_groups [("m.Other", [⟨0, none, true⟩])] "m.C"
    [⟨some [⟨some "REGEX"⟩], some (Expr.StrExpr "(?P<req>x)+"), none⟩]
    "(?P<req>x)+" [⟨0, none, true⟩, ⟨1, some "req", true⟩] rfl (by decide) (by decide)
  exact ⟨h.1, by rw [h.2 "m.Other" (by decide)]; decide⟩

/-- C1 counterexample: the pattern `(abc` fails to parse (the analyzer call
raises `PatternSyntaxError`), yet the class hook attaches no diagnostic to
the declaration site — the error is swallowed, not surfaced. -/
theorem classHook_surfaces_error_cex :
    get_groups "(abc" 0 = Except.error ⟨"missing ), unterminated subpattern", none⟩ ∧
    findRegexPattern unbalancedBody none = some "(abc" ∧
    (staticRegexClassHook get_groups [] "m.C" unbalancedBody).diagnostics = [] :=
  ⟨by decide, rfl, by decide⟩

/-- C1 (amended): when the analyzer call for a discovered pattern fails with
a parse error, the adapter does not surface the error: the hook still
performed its single analyzer call, but it emits no diagnostic, registers no
attribute, and leaves the registry unchanged. -/
theorem classHook_parse_error_silent
    (gg : String → Nat → Except PatternSyntaxError (List Group))
    (reg : Registry) (cls : String) (body : List Stmt)
    (p : String) (e : PatternSyntaxError)
    (hfind : findRegexPattern body none = some p) (hp : p ≠ "")
    (herr : gg p 0 = Except.error e) :
    staticRegexClassHook gg reg cls body = ⟨[(p, 0)], reg, [], []⟩ := by
  simp [staticRegexClassHook, hfind, hp, herr]

/-- Witness for C1 (amended): the concrete unbalanced pattern `(abc`. -/
theorem classHook_parse_error_silent_witness :
    staticRegexClassHook get_groups [] "m.C" unbalancedBody = ⟨[("(abc", 0)], [], [], []⟩ :=
  classHook_parse_error_silent get_groups [] "m.C" unbalancedBody "(abc"
    ⟨"missing ), unterminated subpattern", none⟩ rfl (by decide) (by decide)

/-- C3: on a successful analyzer call, the hook registers an attribute named
`Group.name` for exactly the returned groups that have a name and index at
least 1; the whole-match group at index 0 and unnamed groups register
nothing.  (Group names produced by the analyzer are nonempty, stated here as
the hypothesis `hnames`.) -/
theorem classHook_registers_named_groups
    (gg : String → Nat → Except PatternSyntaxError (List Group))
    (reg : Registry) (cls : String) (body : List Stmt)
    (p : String) (groups : List Group)
    (hfind : findRegexPattern body none = some p) (hp : p ≠ "")
    (hok : gg p 0 = Except.ok groups)
    (hnames : ∀ g ∈ groups, g.name ≠ some "") :
    ∀ s : String,
      s ∈ (staticRegexClassHook gg reg cls body).registeredAttrs ↔
        ∃ g ∈ groups, 1 ≤ g.index ∧ g.name = some s := by
  have ha : (staticRegexClassHook gg reg cls body).registeredAttrs =
      (groups.filter fun g => !(g.index == 0 || nameFalsy g.name)).map
        (fun g => g.name.getD "") := by
    simp [staticRegexClassHook, hfind, hp, hok]
  rw [ha]
  intro s
  simp only [List.mem_map, List.mem_filter]
  constructor
  · rintro ⟨g, ⟨hg, hcond⟩, hgetd⟩
    simp only [Bool.not_eq_true', Bool.or_eq_false_iff, beq_eq_false_iff_ne] at hcond
    obtain ⟨hidx, hfal⟩ := hcond
    cases hn : g.name with
    | none => rw [hn] at hfal; simp [nameFalsy] at hfal
    | some t =>
        refine ⟨g, hg, Nat.one_le_iff_ne_zero.2 hidx, ?_⟩
        rw [hn] at hgetd
        simp only [Option.getD_some] at hgetd
        rw [hn, hgetd]
  · rintro ⟨g, hg, hidx, hname⟩
    have hs : s ≠ "" := fun hemp => hnames g hg (hemp ▸ hname)
    refine ⟨g, ⟨hg, ?_⟩, by rw [hname]; rfl⟩
    simp only [Bool.not_eq_true', Bool.or_eq_false_iff, beq_eq_false_iff_ne]
    exact ⟨Nat.one_le_iff_ne_zero.1 hidx, by rw [hname]; simp [nameFalsy, hs]⟩

/-- Witness for C3: analyzing `(?P<a>x)|(?P<b>y)` registers the attribute
`a`. -/
theorem classHook_registers_named_groups_witness :
    "a" ∈ (staticRegexClassHook get_groups [] "m.C"
        [⟨some [⟨some "REGEX"⟩], some (Expr.StrExpr "(?P<a>x)|(?P<b>y)"), none⟩]).registeredAttrs ↔
      ∃ g ∈ [Group.mk 0 none true, Group.mk 1 (some "a") false, Group.mk 2 (some "b") false],
        1 ≤ g.index ∧ g.name = some "a" :=
  classHook_registers_named_groups get_groups [] "m.C"
    [⟨some [⟨some "REGEX"⟩], some (Expr.StrExpr "(?P<a>x)|(?P<b>y)"), none⟩]
    "(?P<a>x)|(?P<b>y)" [Group.mk 0 none true, Group.mk 1 (some "a") false, Group.mk 2 (some "b") false]
    rfl (by decide) (by decide) (by decide) "a"

/-! ### Claim theorems: the attribute hook -/

/-- The class-access MRO walk succeeds exactly when some base class in the
MRO has a registered group with the accessed name. -/
theorem classAccessFindsGroup_iff (reg : Registry) (attr : String) (mro : List String) :
    classAccessFindsGroup reg attr mro = true ↔
      ∃ b ∈ mro, ∃ g ∈ (Registry.get reg b).getD [], g.name = some attr := by
  induction mro with
  | nil => simp [classAccessFindsGroup]
  | cons b rest ih =>
      match hb : Registry.get reg b with
      | none =>
          rw [classAccessFindsGroup, hb]
          simp only [groupsTruthy, List.mem_cons]
          rw [ih]
          constructor
          · rintro ⟨b2, hb2, hg⟩
            exact ⟨b2, Or.inr hb2, hg⟩
          · rintro ⟨b2, hb2 | hb2, hg⟩
            · subst hb2; rw [hb] at hg; simp at hg
            · exact ⟨b2, hb2, hg⟩
      | some [] =>
          rw [classAccessFindsGroup, hb]
          simp only [groupsTruthy, List.mem_cons]
          rw [ih]
          constructor
          · rintro ⟨b2, hb2, hg⟩
            exact ⟨b2, Or.inr hb2, hg⟩
          · rintro ⟨b2, hb2 | hb2, hg⟩
            · subst hb2; rw [hb] at hg; simp at hg
            · exact ⟨b2, hb2, hg⟩
      | some (g0 :: gs) =>
          rw [classAccessFindsGroup, hb]
          simp only [groupsTruthy]
          by_cases hany : (g0 :: gs).any (fun g => g.name = some attr) = true
          · simp only [hany, if_true, true_iff]
            rw [List.any_eq_true] at hany
            obtain ⟨g, hg, hgn⟩ := hany
            exact ⟨b, List.mem_cons_self b rest, g, by rw [hb]; exact hg,
              of_decide_eq_true hgn⟩
          · rw [Bool.not_eq_true] at hany
            simp only [hany, Bool.false_eq_true, if_false]
            rw [ih]
            constructor
            · rintro ⟨b2, hb2, hg⟩
              exact ⟨b2, List.mem_cons_of_mem b hb2, hg⟩
            · rintro ⟨b2, hb2, g, hg, hgn⟩
              rcases List.mem_cons.1 hb2 with hb2 | hb2
              · subst hb2
                rw [hb] at hg
                rw [List.any_eq_false] at hany
                exact absurd (decide_eq_true hgn) (by simpa using hany g hg)
              · exact ⟨b2, hb2, g, hg, hgn⟩

/-- If no base class along the MRO has a registered group with the accessed
name, the instance-access walk finds nothing. -/
theorem findGroupInMRO_eq_none (reg : Registry) (attr : String) (mro : List String)
    (h : ∀ b ∈ mro, ∀ g ∈ (Registry.get reg b).getD [], g.name ≠ some attr) :
    findGroupInMRO reg attr mro = none := by
  induction mro with
  | nil => rfl
  | cons b rest ih =>
      have hrest : findGroupInMRO reg attr rest = none :=
        ih fun b2 hb2 => h b2 (List.mem_cons_of_mem b hb2)
      match hb : Registry.get reg b with
      | none => rw [findGroupInMRO, hb]; exact hrest
      | some [] => rw [findGroupInMRO, hb]; exact hrest
      | some (g0 :: gs) =>
          rw [findGroupInMRO, hb]
          simp only [groupsTruthy]
          have hfind : (g0 :: gs).find? (fun g => g.name = some attr) = none := by
            rw [List.find?_eq_none]
            intro g hg
            have := h b (List.mem_cons_self b rest) g (by rw [hb]; exact hg)
            simpa using this
          rw [hfind]
          exact hrest

/-- C2: on an instance attribute access, when the MRO walk over the
registered analysis results finds a group whose name equals the accessed
attribute name, the hook returns the non-nullable text type `str` if that
group's `always_present` flag is true, and the nullable `str | None` if it
is false (the walk returns the first matching group of the first base class
in method-resolution order that registered one). -/
theorem attributeHook_instance_group_type
    (reg : Registry) (ctx : AttrContext) (mro : List String) (attr : String) (g : Group)
    (hty : ctx.type = MypyType.instanceType mro)
    (hname : resolveAttrName ctx = some attr)
    (hfind : findGroupInMRO reg attr mro = some g) :
    attributeHook reg ctx =
      ⟨if g.always_present then AttrResult.strType else AttrResult.strOrNone, false⟩ := by
  simp only [attributeHook, hname, hty, hfind]
  cases hgp : g.always_present <;> simp [hgp]

/-- Witness for C2: an always-present group types as `str` on an instance
access. -/
theorem attributeHook_instance_group_type_witness :
    attributeHook [("m.C", [⟨0, none, true⟩, ⟨1, some "val", true⟩])]
        ⟨some "val", none, MypyType.instanceType ["m.C"]⟩ =
      ⟨AttrResult.strType, false⟩ :=
  attributeHook_instance_group_type [("m.C", [⟨0, none, true⟩, ⟨1, some "val", true⟩])]
    ⟨some "val", none, MypyType.instanceType ["m.C"]⟩ ["m.C"] "val" ⟨1, some "val", true⟩
    rfl rfl (by decide)

/-- C9: on an access through the class object itself (`ctx.type` is a
`TypeType` over an `Instance`) to an attribute registered as a regex group
of some class in the MRO, the hook calls `ctx.api.fail` (reporting that the
attribute is an instance attribute for regex groups) and returns the
default attribute type, not a `str`-based type. -/
theorem attributeHook_class_access_fails
    (reg : Registry) (ctx : AttrContext) (mro : List String) (attr : String)
    (hty : ctx.type = MypyType.typeTypeInstance mro)
    (hname : resolveAttrName ctx = some attr)
    (hreg : ∃ b ∈ mro, ∃ g ∈ (Registry.get reg b).getD [], g.name = some attr) :
    attributeHook reg ctx = ⟨AttrResult.defaultType, true⟩ := by
  simp only [attributeHook, hname, hty, (classAccessFindsGroup_iff reg attr mro).2 hreg]
  simp

/-- Witness for C9: class-object access to a registered group attribute. -/
theorem attributeHook_class_access_fails_witness :
    attributeHook [("m.C", [⟨0, none, true⟩, ⟨1, some "val", true⟩])]
        ⟨some "val", none, MypyType.typeTypeInstance ["m.C"]⟩ =
      ⟨AttrResult.defaultType, true⟩ :=
  attributeHook_class_access_fails [("m.C", [⟨0, none, true⟩, ⟨1, some "val", true⟩])]
    ⟨some "val", none, MypyType.typeTypeInstance ["m.C"]⟩ ["m.C"] "val"
    rfl rfl (by decide)

/-- C10: when the access context carries no (truthy) attribute name, or the
resolved name matches no registered group of any class along the accessed
type's MRO, the hook returns `ctx.default_attr_type` unchanged and emits no
error — attributes that are not regex groups are never retyped. -/
theorem attributeHook_non_group_default
    (reg : Registry) (ctx : AttrContext)
    (h : resolveAttrName ctx = none ∨
         ∃ attr, resolveAttrName ctx = some attr ∧
           ∀ b ∈ mroOf ctx.type, ∀ g ∈ (Registry.get reg b).getD [], g.name ≠ some attr) :
    attributeHook reg ctx = ⟨AttrResult.defaultType, false⟩ := by
  rcases h with h | ⟨attr, hres, hnone⟩
  · simp only [attributeHook, h]
  · cases hty : ctx.type with
    | typeTypeInstance mro =>
        rw [hty] at hnone
        simp only [mroOf] at hnone
        have hcl : classAccessFindsGroup reg attr mro = false := by
          cases hcl : classAccessFindsGroup reg attr mro with
          | false => rfl
          | true =>
              obtain ⟨b, hb, g, hg, hgn⟩ := (classAccessFindsGroup_iff reg attr mro).1 hcl
              exact absurd hgn (hnone b hb g hg)
        simp only [attributeHook, hres, hty, hcl]
        simp
    | typeTypeOther => simp only [attributeHook, hres, hty]
    | instanceType mro =>
        rw [hty] at hnone
        simp only [mroOf] at hnone
        simp only [attributeHook, hres, hty, findGroupInMRO_eq_none reg attr mro hnone]
    | otherType => simp only [attributeHook, hres, hty]

/-- Witness for C10: an attribute that is not a registered group name keeps
its default type. -/
theorem attributeHook_non_group_default_witness :
    attributeHook [("m.C", [⟨0, none, true⟩, ⟨1, some "val", true⟩])]
        ⟨some "other", none, MypyType.instanceType ["m.C"]⟩ =
      ⟨AttrResult.defaultType, false⟩ :=
  attributeHook_non_group_default [("m.C", [⟨0, none, true⟩, ⟨1, some "val", true⟩])]
    ⟨some "other", none, MypyType.instanceType ["m.C"]⟩
    (Or.inr ⟨"other", rfl, by decide⟩)

/-! ### Claim theorems: the presence analyzer -/

/-- Group maps of branches, elementwise. -/
theorem mem_groupMapBranches {b : Node} {bs : List Node} (h : b ∈ bs) :
    groupMap b ∈ groupMapBranches bs := by
  induction bs with
  | nil => cases h
  | cons x xs ih =>
      show groupMap b ∈ groupMap x :: groupMapBranches xs
      rcases List.mem_cons.1 h with h1 | h1
      · subst h1; exact List.mem_cons_self _ _
      · exact List.mem_cons_of_mem _ (ih h1)

/-- Every entry of a combined alternation map carries the state computed by
the every-branch test on its own index. -/
theorem mem_combineAlternation_state (maps : List (List GEntry)) (e : GEntry)
    (he : e ∈ combineAlternation maps) :
    e.state = if allBranchesAlways maps e.index then PresenceState.Always
              else PresenceState.Conditional := by
  unfold combineAlternation at he
  rw [List.mem_map] at he
  obtain ⟨e0, he0, rfl⟩ := he
  rfl

/-- A branch contributing no entry for an index falsifies the every-branch
`Always` test for that index. -/
theorem allBranchesAlways_eq_false {maps : List (List GEntry)} {i : Nat}
    {m : List GEntry} (hm : m ∈ maps) (hno : ∀ e ∈ m, e.index ≠ i) :
    allBranchesAlways maps i = false := by
  cases hall : allBranchesAlways maps i with
  | false => rfl
  | true =>
      unfold allBranchesAlways at hall
      rw [List.all_eq_true] at hall
      have hba := hall m hm
      unfold branchAlways at hba
      rw [List.any_eq_true] at hba
      obtain ⟨e, he, hcond⟩ := hba
      simp only [Bool.and_eq_true, beq_iff_eq] at hcond
      exact absurd hcond.1 (hno e he)

/-- C6: a group that appears in only one branch of a top-level alternation
is classified conditionally present — stated generally (whenever some branch
of an `Alternation` contributes no entry for an index, every entry for that
index in the alternation's combined map is `Conditional`, which covers the
group appearing in just one of two or more branches), and concretely:
analyzing `(?P<a>x)|(?P<b>y)` yields group `a` at index 1 and group `b` at
index 2, both with `always_present` false. -/
theorem alternation_single_branch_conditional :
    (∀ (bs : List Node) (i : Nat) (b2 : Node), b2 ∈ bs →
        (∀ e ∈ groupMap b2, e.index ≠ i) →
        ∀ e ∈ groupMap (Node.Alternation bs), e.index = i →
          e.state = PresenceState.Conditional) ∧
    analyze "(?P<a>x)|(?P<b>y)" 0 =
      Except.ok [⟨0, none, true⟩, ⟨1, some "a", false⟩, ⟨2, some "b", false⟩] := by
  constructor
  · intro bs i b2 hb2 hno e he hei
    have he2 : e ∈ combineAlternation (groupMapBranches bs) := he
    have hst := mem_combineAlternation_state _ _ he2
    have hall : allBranchesAlways (groupMapBranches bs) i = false :=
      allBranchesAlways_eq_false (mem_groupMapBranches hb2) hno
    rw [hei, hall] at hst
    simpa using hst
  · decide

/-- Witness for C6: the alternation of two one-group branches marks the
group of the first branch `Conditional`. -/
theorem alternation_single_branch_conditional_witness :
    GEntry.state ⟨1, some "a", PresenceState.Conditional⟩ = PresenceState.Conditional :=
  alternation_single_branch_conditional.1
    [Node.Grp 1 (some "a") Node.Literal, Node.Grp 2 (some "b") Node.Literal] 1
    (Node.Grp 2 (some "b") Node.Literal)
    (List.mem_cons_of_mem _ (List.mem_cons_self _ _))
    (by decide)
    ⟨1, some "a", PresenceState.Conditional⟩ (by decide) rfl

/-- C7: every successful `analyze` result contains the implicit whole-match
group: index 0, no name, always present. -/
theorem analyze_whole_match_group (p : String) (fl : Nat) (gs : List Group)
    (h : analyze p fl = Except.ok gs) :
    Group.mk 0 none true ∈ gs := by
  unfold analyze at h
  cases hp : parse p fl with
  | error e => rw [hp] at h; simp [Except.map] at h
  | ok root =>
      rw [hp] at h
      simp only [Except.map, Except.ok.injEq] at h
      subst h
      simp only [propagate, List.map_cons]
      exact List.mem_cons_self _ _

/-- Witness for C7 at the concrete pattern `(?P<opt>x)?`. -/
theorem analyze_whole_match_group_witness :
    Group.mk 0 none true ∈ [Group.mk 0 none true, Group.mk 1 (some "opt") false] :=
  analyze_whole_match_group "(?P<opt>x)?" 0
    [Group.mk 0 none true, Group.mk 1 (some "opt") false] (by decide)

end ReStatic
